import Mathlib

/-
Verification of the SyncPushPull repository (syncit.py, monitorRemote.py)
against its natural-language specification.

Paths and protocol lines are modelled as `List Char` (a byte/character
sequence); timestamps and float-valued delays as `ℚ`; the integer
`--retrySleep` option as `ℤ`; process exit statuses as `ℤ`.
The external tools (rsync, ssh, inotify) are black boxes: rsync outcomes
enter as an oracle function or an explicit behaviour value, inotify as a
list of queued `(timestamp, path)` events.
-/

/-! ## posixpath primitives used by the program

`os.path.commonpath`, `os.path.relpath`, `os.path.join`, `os.path.dirname`
for POSIX paths, as the program applies them (absolute inputs). -/

/-- Python's str.split on the separator `/`: accumulator-based splitter;
`splitSlashAux rest acc` has already read `acc` (reversed) of the current
component. -/
def splitSlashAux : List Char → List Char → List (List Char)
  | [], acc => [acc.reverse]
  | c :: rest, acc =>
      if c = '/' then acc.reverse :: splitSlashAux rest []
      else splitSlashAux rest (c :: acc)

/-- Python's `p.split("/")`. -/
def splitSlash (p : List Char) : List (List Char) := splitSlashAux p []

/-- Python's `"/".join(parts)`. -/
def intercalateSlash : List (List Char) → List Char
  | [] => []
  | [c] => c
  | c :: cs => c ++ '/' :: intercalateSlash cs

/-- Longest common prefix of two component lists; this is what
`os.path.commonprefix` computes on a pair of sequences, and the
componentwise reduction `os.path.commonpath` performs across all paths. -/
def lcp2 {α : Type} [DecidableEq α] : List α → List α → List α
  | a :: as, b :: bs => if a = b then a :: lcp2 as bs else []
  | _, _ => []

/-- The component list `os.path.commonpath` builds for one path:
split on the separator, drop empty components and `"."` (curdir). -/
def pathComponents (p : List Char) : List (List Char) :=
  (splitSlash p).filter (fun c => !c.isEmpty && c ≠ [ '.' ])

/-- The component list `os.path.relpath` builds for one path:
split on the separator, drop only empty components. -/
def nonemptyComponents (p : List Char) : List (List Char) :=
  (splitSlash p).filter (fun c => !c.isEmpty)

/-- os.path.join for two POSIX path pieces, as used by the program. -/
def joinPath (a b : List Char) : List Char :=
  if b.head? = some '/' then b
  else if a = [] ∨ a.getLast? = some '/' then a ++ b
  else a ++ '/' :: b

/-- os.path.commonpath for a non-empty collection of absolute POSIX paths:
componentwise longest common prefix of the cleaned component lists,
re-joined with a leading separator.  (CPython computes the same componentwise
longest common prefix through a lexicographic min/max trick.)
The empty collection raises ValueError in Python, modelled as `none`. -/
def commonpath : List (List Char) → Option (List Char)
  | [] => none
  | p :: ps =>
      some ('/' :: intercalateSlash ((ps.map pathComponents).foldl lcp2 (pathComponents p)))

/-- os.path.relpath(path, start) for absolute POSIX inputs (the program only
passes absolute paths, so the initial abspath normalization is the identity):
drop the shared component prefix, prepend one `..` per remaining start
component, return `"."` when nothing is left. -/
def relpathChars (path start : List Char) : List Char :=
  let startList := nonemptyComponents start
  let pathList := nonemptyComponents path
  let i := (lcp2 startList pathList).length
  let rel := List.replicate (startList.length - i) ([ '.', '.' ]) ++ pathList.drop i
  if rel.isEmpty then [ '.' ] else intercalateSlash rel

/-- os.path.dirname for POSIX paths: keep everything up to and including the
last separator, then strip trailing separators unless the head is all
separators. -/
def dirnameChars (p : List Char) : List Char :=
  let head := (p.reverse.dropWhile (fun c => c ≠ '/')).reverse
  if !head.isEmpty && !(head.all (fun c => c = '/')) then
    (head.reverse.dropWhile (fun c => c = '/')).reverse
  else head

/-! ## DebounceBatcher

syncit.py `PushTo.runIt` lines 82-92 and monitorRemote.py lines 33-43:
an event `(t0, fn)` is mapped to its containing directory
(`fn if os.path.isdir(fn) else os.path.dirname(fn)`) and added to the
`sources` set; the loop sleeps `max(t0 - time.time() + delay, 0.1)`
seconds and then drains the queue without further waiting. -/

/-- The directory a change event is charged to: the path itself when it is a
directory, else its dirname.  `isDir` abstracts the filesystem query
`os.path.isdir`. -/
def eventDir (isDir : List Char → Bool) (fn : List Char) : List Char :=
  if isDir fn then fn else dirnameChars fn

/-- Python `set.add` on a set represented as a duplicate-free list. -/
def setAdd {α : Type} [DecidableEq α] (x : α) (s : List α) : List α :=
  if x ∈ s then s else x :: s

/-- Draining a list of queued event paths into the dirty set: each is mapped
to its containing directory and inserted. -/
def drainInto (isDir : List Char → Bool) (events : List (List Char))
    (sources : List (List Char)) : List (List Char) :=
  events.foldl (fun acc fn => setAdd (eventDir isDir fn) acc) sources

/-- The debounce sleep `max(t0 - time.time() + sleepTime, 0.1)` of
syncit.py line 86, written `max(0.1, t0 - time.time() + delay)` in
monitorRemote.py line 37. -/
def debounceSleep (t0 now delay : ℚ) : ℚ := max (t0 - now + delay) (1/10)

/-! ## SyncExecutor

syncit.py `PushTo.rsyncTo` lines 27-55 and `PullFrom.rsyncFrom` lines
162-190 (identical logic): run rsync, capture combined stdout+stderr,
log `warning` with the output when the exit status is non-zero, log `info`
(with the output exactly when it is non-empty) otherwise, and return
`returncode == 0`.  The spawned process is a black box entering through its
exit status and captured output. -/

inductive LogLevel : Type where
  | info
  | warning
  deriving DecidableEq

structure RsyncLog where
  level : LogLevel
  includesOutput : Bool
  deriving DecidableEq

/-- The single log record `rsyncTo`/`rsyncFrom` emits, as a function of the
process exit status and captured output. -/
def rsyncLogOf (returncode : ℤ) (output : List Char) : RsyncLog :=
  if returncode ≠ 0 then ⟨LogLevel.warning, true⟩
  else if output ≠ [] then ⟨LogLevel.info, true⟩
  else ⟨LogLevel.info, false⟩

/-- Return value and log record of one executor invocation. -/
def rsyncRun (returncode : ℤ) (output : List Char) : Bool × RsyncLog :=
  (decide (returncode = 0), rsyncLogOf returncode output)

/-! ## PushCoordinator

syncit.py `PushTo.runIt` lines 57-106.  The rsync outcome for a given
(source, destination) pair enters as an oracle `ok`. -/

/-- The initial sync of `PushTo.runIt` lines 70-79: sources starts as
the singleton tree root, each target is synced from the root, and the set
is cleared exactly when every target succeeded. -/
def initCycle (dirRoot : List Char) (targets : List (List Char))
    (ok : List Char → List Char → Bool) : List (List Char) :=
  if targets.all (fun tgt => ok dirRoot tgt) then [] else [dirRoot]

/-- Destination for one target in the steady loop, lines 99-100:
`if relpath != ".": tgt = os.path.join(tgt, relpath)`. -/
def pushDest (tgt rel : List Char) : List Char :=
  if rel = [ '.' ] then tgt else joinPath tgt rel

structure CycleResult where
  sources : List (List Char)
  src : List Char
  invocations : List (List Char × List Char × Bool)
  deriving DecidableEq

/-- One steady-state cycle of `PushTo.runIt` lines 82-106: the blocking first
event and the drained events (all mapped through `eventDir`) are added to
`sources`; `src` is their common path, `relpath` strips the root; each
target is synced from `src` to its `pushDest`; the set is cleared exactly
when every invocation succeeded. -/
def steadyCycle (isDir : List Char → Bool) (dirRoot : List Char)
    (targets : List (List Char)) (ok : List Char → List Char → Bool)
    (sources : List (List Char)) (firstEvent : List Char)
    (moreEvents : List (List Char)) : CycleResult :=
  let sources2 := drainInto isDir (firstEvent :: moreEvents) sources
  let src := (commonpath sources2).getD []
  let rel := relpathChars src dirRoot
  let invs := targets.map (fun tgt => (src, pushDest tgt rel, ok src (pushDest tgt rel)))
  ⟨if invs.all (fun i => i.2.2) then [] else sources2, src, invs⟩

/-! ## RemoteMonitorBridge

syncit.py `MonitorRemote.runIt` lines 115-154.  The line parser is the
Python regular expression `re.match` of the bytes pattern
`^:(.+)\s+$` (line 139): anchored at the start, a literal colon, a greedy
group of one or more non-newline bytes, one or more whitespace bytes, and
an end anchor matching at the end of the line or just before a final
newline. -/

/-- ASCII whitespace classified by the regex class `\s` in bytes mode. -/
def isPySpace (c : Char) : Bool :=
  c = ' ' || c = '\t' || c = '\n' || c = '\r' || c = '\x0b' || c = '\x0c'

/-- Whether the remainder after the group satisfies the trailing pattern
`\s+$` of the regex: at least one byte, all whitespace (the end anchor then
matches at the end, or before a final newline which is itself whitespace). -/
def tailMatchesWs (r : List Char) : Bool := !r.isEmpty && r.all isPySpace

/-- Greedy backtracking of the group `(.+)`: `g` is the reversed current
group candidate (initially the maximal run of non-newline bytes), `r` the
remainder.  The longest candidate whose remainder matches `\s+$` wins; on
failure one byte is given back from the end of the group. -/
def backtrackRev : List Char → List Char → Option (List Char)
  | [], _ => none
  | c :: g, r =>
      if tailMatchesWs r then some ((c :: g).reverse)
      else backtrackRev g (c :: r)

/-- The match of regex `^:(.+)\s+$` against one line, returning the captured
group: the line must begin with a colon; the group is the greedy run of
non-newline bytes backtracked until the rest is non-empty whitespace. -/
def reMatchColon (line : List Char) : Option (List Char) :=
  match line with
  | [] => none
  | c :: rest =>
      if c = ':' then
        backtrackRev (rest.takeWhile (fun x => x ≠ '\n')).reverse
          (rest.dropWhile (fun x => x ≠ '\n'))
      else none

/-- Observable actions of the bridge thread, in program order. -/
inductive BridgeAct : Type where
  | connect
  | enqueuePath (p : List Char)
  | logUnmatched
  | sleepBackoff (s : ℤ)
  | sentinel
  deriving DecidableEq

/-- Processing of one line read from the remote process, lines 137-149:
an unmatched line is logged and discarded; a matched line enqueues the
captured path (decoded to text when possible; the decode does not change
the byte content, so it is the identity here). -/
def processLine (line : List Char) : List BridgeAct :=
  match reMatchColon line with
  | none => [BridgeAct.logUnmatched]
  | some fn => [BridgeAct.enqueuePath fn]

/-- The line the remote watcher prints per settled batch,
monitorRemote.py line 46: the f-string `src:` followed by the common path,
plus the newline appended by `print`. -/
def producerLine (src : List Char) : List Char :=
  [ 's', 'r', 'c', ':' ] ++ src ++ [ '\n' ]

/-- One iteration of the `for cnt in range(args.retries)` loop of
`MonitorRemote.runIt` lines 131-153: spawn the remote process, read and
dispatch every line until the stream closes, then log, sleep
`args.retrySleep`, and enqueue the `(time.time(), None)` sentinel.  -/
def bridgeIteration (lines : List (List Char)) (retrySleep : ℤ) : List BridgeAct :=
  BridgeAct.connect ::
    (lines.flatMap processLine ++ [BridgeAct.sleepBackoff retrySleep, BridgeAct.sentinel])

/-- The `for cnt in range(retries)` loop itself: `fuel` iterations remain,
`cnt` is the loop counter, and `sessions cnt` is the list of lines the
`cnt`-th connection delivers before its channel closes. -/
def bridgeLoop (sessions : Nat → List (List Char)) (retrySleep : ℤ) :
    Nat → Nat → List BridgeAct
  | _, 0 => []
  | cnt, fuel + 1 =>
      bridgeIteration (sessions cnt) retrySleep ++ bridgeLoop sessions retrySleep (cnt + 1) fuel

/-- The full action trace of `MonitorRemote.runIt` with `retries` configured
reconnection attempts. -/
def bridgeRun (retries : Nat) (sessions : Nat → List (List Char)) (retrySleep : ℤ) :
    List BridgeAct :=
  bridgeLoop sessions retrySleep 0 retries

/-! ## PullCoordinator

syncit.py `PullFrom.runIt` lines 192-221, in particular the steady loop
lines 206-221.  A queue payload is a Python value: a `str` (what
`MonitorRemote` enqueues for a matched line whose bytes decode), `bytes`
(the fallback when decoding failed, represented here by its own UTF-8
decoding result, `none` when invalid), or the `(time.time(), None)`
sentinel tuple enqueued after a channel closure. -/

inductive PyExn : Type where
  | typeError
  | unicodeDecodeError
  | osError
  deriving DecidableEq

inductive Payload : Type where
  | text (s : List Char)
  | binary (decoded : Option (List Char))
  | sentinel (t : ℚ)
  deriving DecidableEq

/-- How the black-box `rsyncFrom` call behaves for this notification:
return a status, or raise (e.g. `FileNotFoundError` from `subprocess.run`
when the rsync binary is missing). -/
inductive RsyncBehavior : Type where
  | returns (ok : Bool)
  | raises (e : PyExn)
  deriving DecidableEq

/-- The conversion `str(path, "UTF-8")` of line 210.  Because line 209
tests `~isinstance(path, str)` — a bitwise not, whose value (-1 or -2) is
always truthy — the conversion is attempted on every payload: on a `str`
or on the sentinel tuple it raises TypeError, on `bytes` it decodes or
raises UnicodeDecodeError. -/
def strConv : Payload → Except PyExn (List Char)
  | Payload.text _ => Except.error PyExn.typeError
  | Payload.binary (some s) => Except.ok s
  | Payload.binary none => Except.error PyExn.unicodeDecodeError
  | Payload.sentinel _ => Except.error PyExn.typeError

/-- Source/target pair for one pull transfer, lines 211-217: the root
marker `"."` maps to (remote directory, local target) wholesale, any other
path is joined onto both; the source is then host-qualified. -/
def pullPaths (hostname directory tgt path : List Char) : List Char × List Char :=
  let p := if path = [ '.' ] then (directory, tgt)
           else (joinPath directory path, joinPath tgt path)
  (hostname ++ ':' :: p.1, p.2)

/-- The body of the `try:` block, lines 208-218, before the handler:
the list of rsync invocations made (source, target) and either normal
completion or the exception that reached the handler. -/
def pullTryBody (hostname directory tgt : List Char) (rb : RsyncBehavior)
    (p : Payload) : List (List Char × List Char) × Except PyExn Unit :=
  match strConv p with
  | Except.error e => ([], Except.error e)
  | Except.ok path =>
      let pp := pullPaths hostname directory tgt path
      match rb with
      | RsyncBehavior.returns _ => ([pp], Except.ok ())
      | RsyncBehavior.raises e => ([pp], Except.error e)

structure PullStepResult where
  transfers : List (List Char × List Char)
  escaped : Option PyExn
  loggedSkip : Bool
  deriving DecidableEq

/-- Whether an `Except` value is a normal completion. -/
def exceptOk : Except PyExn Unit → Bool
  | Except.ok _ => true
  | Except.error _ => false

/-- One iteration of the steady loop for one dequeued payload,
lines 206-221: the bare `except:` of line 219 catches every exception the
try block raises, logs it, and the loop continues — nothing escapes. -/
def pullStep (hostname directory tgt : List Char) (rb : RsyncBehavior)
    (p : Payload) : PullStepResult :=
  match pullTryBody hostname directory tgt rb p with
  | (invs, Except.ok _) => ⟨invs, none, false⟩
  | (invs, Except.error _) => ⟨invs, none, true⟩

/-! ## Helper lemmas -/

theorem mem_setAdd_iff {α : Type} [DecidableEq α] (y x : α) (s : List α) :
    y ∈ setAdd x s ↔ y = x ∨ y ∈ s := by
  unfold setAdd
  by_cases h : x ∈ s
  · simp only [if_pos h]
    constructor
    · exact fun hy => Or.inr hy
    · rintro (rfl | hy)
      · exact h
      · exact hy
  · simp [if_neg h]

theorem mem_setAdd_self {α : Type} [DecidableEq α] (x : α) (s : List α) :
    x ∈ setAdd x s := (mem_setAdd_iff x x s).mpr (Or.inl rfl)

theorem mem_setAdd_of_mem {α : Type} [DecidableEq α] {y : α} (x : α) {s : List α}
    (h : y ∈ s) : y ∈ setAdd x s := (mem_setAdd_iff y x s).mpr (Or.inr h)

theorem mem_drainInto_of_mem (isDir : List Char → Bool) (events : List (List Char))
    {x : List Char} {sources : List (List Char)} (h : x ∈ sources) :
    x ∈ drainInto isDir events sources := by
  induction events generalizing sources with
  | nil => exact h
  | cons e es ih => exact ih (mem_setAdd_of_mem _ h)

theorem mem_drainInto_iff (isDir : List Char → Bool) (events : List (List Char))
    (sources : List (List Char)) (x : List Char) :
    x ∈ drainInto isDir events sources ↔
      x ∈ sources ∨ ∃ fn ∈ events, eventDir isDir fn = x := by
  induction events generalizing sources with
  | nil => simp [drainInto]
  | cons e es ih =>
      show x ∈ drainInto isDir es (setAdd (eventDir isDir e) sources) ↔ _
      rw [ih]
      rw [mem_setAdd_iff]
      constructor
      · rintro ((rfl | hs) | ⟨fn, hfn, rfl⟩)
        · exact Or.inr ⟨e, List.mem_cons_self e es, rfl⟩
        · exact Or.inl hs
        · exact Or.inr ⟨fn, List.mem_cons_of_mem e hfn, rfl⟩
      · rintro (hs | ⟨fn, hfn, rfl⟩)
        · exact Or.inl (Or.inr hs)
        · rcases List.mem_cons.mp hfn with rfl | hfn
          · exact Or.inl (Or.inl rfl)
          · exact Or.inr ⟨fn, hfn, rfl⟩

theorem first_event_mem_drainInto (isDir : List Char → Bool) (e : List Char)
    (es : List (List Char)) (sources : List (List Char)) :
    eventDir isDir e ∈ drainInto isDir (e :: es) sources := by
  exact (mem_drainInto_iff isDir (e :: es) sources _).mpr
    (Or.inr ⟨e, List.mem_cons_self e es, rfl⟩)

theorem lcp2_prefix_left {α : Type} [DecidableEq α] :
    ∀ a b : List α, lcp2 a b <+: a := by
  intro a
  induction a with
  | nil => intro b; cases b <;> exact List.nil_prefix
  | cons x xs ih =>
      intro b
      cases b with
      | nil => exact List.nil_prefix
      | cons y ys =>
          show (if x = y then x :: lcp2 xs ys else []) <+: x :: xs
          by_cases h : x = y
          · rw [if_pos h]
            obtain ⟨t, ht⟩ := ih ys
            exact ⟨t, by rw [List.cons_append, ht]⟩
          · rw [if_neg h]; exact List.nil_prefix

theorem lcp2_prefix_right {α : Type} [DecidableEq α] :
    ∀ a b : List α, lcp2 a b <+: b := by
  intro a
  induction a with
  | nil => intro b; cases b <;> exact List.nil_prefix
  | cons x xs ih =>
      intro b
      cases b with
      | nil => exact List.nil_prefix
      | cons y ys =>
          show (if x = y then x :: lcp2 xs ys else []) <+: y :: ys
          by_cases h : x = y
          · rw [if_pos h, h]
            obtain ⟨t, ht⟩ := ih ys
            exact ⟨t, by rw [List.cons_append, ht]⟩
          · rw [if_neg h]; exact List.nil_prefix

theorem prefix_lcp2 {α : Type} [DecidableEq α] :
    ∀ p a b : List α, p <+: a → p <+: b → p <+: lcp2 a b := by
  intro p
  induction p with
  | nil => intro a b _ _; exact List.nil_prefix
  | cons x xs ih =>
      intro a b ha hb
      obtain ⟨t, ht⟩ := ha
      obtain ⟨u, hu⟩ := hb
      subst ht
      subst hu
      show x :: xs <+: lcp2 (x :: (xs ++ t)) (x :: (xs ++ u))
      show x :: xs <+: (if x = x then x :: lcp2 (xs ++ t) (xs ++ u) else [])
      rw [if_pos rfl]
      obtain ⟨v, hv⟩ := ih (xs ++ t) (xs ++ u) ⟨t, rfl⟩ ⟨u, rfl⟩
      exact ⟨v, by rw [List.cons_append, hv]⟩

theorem foldl_lcp2_prefix_acc {α : Type} [DecidableEq α] (l : List (List α)) :
    ∀ acc : List α, l.foldl lcp2 acc <+: acc := by
  induction l with
  | nil => intro acc; exact List.prefix_refl acc
  | cons x xs ih =>
      intro acc
      exact (ih (lcp2 acc x)).trans (lcp2_prefix_left acc x)

theorem foldl_lcp2_prefix_mem {α : Type} [DecidableEq α] (l : List (List α)) :
    ∀ acc : List α, ∀ x ∈ l, l.foldl lcp2 acc <+: x := by
  induction l with
  | nil => intro acc x hx; exact absurd hx (List.not_mem_nil x)
  | cons y ys ih =>
      intro acc x hx
      rcases List.mem_cons.mp hx with rfl | hx
      · exact (foldl_lcp2_prefix_acc ys (lcp2 acc x)).trans (lcp2_prefix_right acc x)
      · exact ih (lcp2 acc y) x hx

theorem prefix_foldl_lcp2 {α : Type} [DecidableEq α] (l : List (List α)) :
    ∀ acc p : List α, p <+: acc → (∀ x ∈ l, p <+: x) → p <+: l.foldl lcp2 acc := by
  induction l with
  | nil => intro acc p hp _; exact hp
  | cons y ys ih =>
      intro acc p hp hl
      exact ih (lcp2 acc y) p (prefix_lcp2 p acc y hp (hl y (List.mem_cons_self y ys)))
        (fun x hx => hl x (List.mem_cons_of_mem y hx))

theorem count_processLine_eq_zero (a : BridgeAct)
    (h1 : a ≠ BridgeAct.logUnmatched) (h2 : ∀ p, a ≠ BridgeAct.enqueuePath p)
    (l : List Char) : (processLine l).count a = 0 := by
  unfold processLine
  cases hm : reMatchColon l with
  | none => simp [List.count_singleton, h1]
  | some fn => simp [List.count_singleton, h2 fn]

theorem count_flatMap_processLine_eq_zero (a : BridgeAct)
    (h1 : a ≠ BridgeAct.logUnmatched) (h2 : ∀ p, a ≠ BridgeAct.enqueuePath p) :
    ∀ lines : List (List Char), ((lines.flatMap processLine).count a) = 0 := by
  intro lines
  induction lines with
  | nil => rfl
  | cons l ls ih =>
      rw [List.flatMap_cons, List.count_append, ih,
        count_processLine_eq_zero a h1 h2 l]

theorem count_bridgeIteration (a : BridgeAct) (b : ℤ)
    (h1 : a ≠ BridgeAct.logUnmatched) (h2 : ∀ p, a ≠ BridgeAct.enqueuePath p)
    (h3 : a = BridgeAct.connect ∨ a = BridgeAct.sleepBackoff b ∨ a = BridgeAct.sentinel)
    (lines : List (List Char)) : (bridgeIteration lines b).count a = 1 := by
  unfold bridgeIteration
  rw [List.count_cons, List.count_append, count_flatMap_processLine_eq_zero a h1 h2]
  rcases h3 with rfl | rfl | rfl <;> simp [List.count_cons]

theorem count_bridgeLoop (a : BridgeAct) (b : ℤ)
    (h1 : a ≠ BridgeAct.logUnmatched) (h2 : ∀ p, a ≠ BridgeAct.enqueuePath p)
    (h3 : a = BridgeAct.connect ∨ a = BridgeAct.sleepBackoff b ∨ a = BridgeAct.sentinel)
    (sessions : Nat → List (List Char)) :
    ∀ fuel cnt, (bridgeLoop sessions b cnt fuel).count a = fuel := by
  intro fuel
  induction fuel with
  | zero => intro cnt; rfl
  | succ n ih =>
      intro cnt
      show (bridgeIteration (sessions cnt) b ++ bridgeLoop sessions b (cnt + 1) n).count a = n + 1
      rw [List.count_append, ih (cnt + 1), count_bridgeIteration a b h1 h2 h3]
      omega

/-! ## Claim theorems -/

/-- C1: the spec claims the remote watcher's output line and the bridge's
line parser agree on the leading literal token, so that for every settled
batch the path is enqueued.  In the code they do not agree: the producer
prints lines beginning with the four bytes `src:` (monitorRemote.py line
46) while the consumer's regex `^:(.+)\s+$` (syncit.py line 139) only
matches lines whose first byte is a colon.  Every producer line is
therefore logged as unmatched and nothing is ever enqueued. -/
theorem C1_wire_protocol_divergence (src : List Char) :
    processLine (producerLine src) = [BridgeAct.logUnmatched] := by
  show processLine ('s' :: ([ 'r', 'c', ':' ] ++ src ++ [ '\n' ])) = _
  unfold processLine reMatchColon
  simp

/-- C2: the spec claims a text payload dequeued by the pull coordinator
triggers exactly one transfer.  In the code, line 209 tests
`~isinstance(path, str)` — bitwise not of a bool, always truthy — so
`str(path, "UTF-8")` is attempted on the str payload, raises TypeError,
is swallowed by the bare except, and the notification is skipped: zero
transfers are invoked for every text payload. -/
theorem C2_text_payload_skipped (hostname directory tgt : List Char)
    (rb : RsyncBehavior) (s : List Char) :
    (pullStep hostname directory tgt rb (Payload.text s)).transfers = [] ∧
      (pullStep hostname directory tgt rb (Payload.text s)).loggedSkip = true :=
  ⟨rfl, rfl⟩

/-- C10: a sentinel entry `(timestamp, None)` dequeued by the pull
coordinator is inert: the tuple fails the `str(path, "UTF-8")` conversion
with TypeError, which the bare except catches and logs; no transfer is
invoked, no fault escapes the loop, and the coordinator just continues. -/
theorem C10_sentinel_inert (hostname directory tgt : List Char)
    (rb : RsyncBehavior) (ts : ℚ) :
    pullStep hostname directory tgt rb (Payload.sentinel ts) =
      ⟨[], none, true⟩ :=
  rfl

/-- For reasoning about `steadyCycle`: its retained set is empty or the
drained set according to full success of its invocations. -/
theorem steadyCycle_sources_eq (isDir : List Char → Bool) (dirRoot : List Char)
    (targets : List (List Char)) (ok : List Char → List Char → Bool)
    (sources : List (List Char)) (firstEvent : List Char)
    (moreEvents : List (List Char)) :
    (steadyCycle isDir dirRoot targets ok sources firstEvent moreEvents).sources =
      if (steadyCycle isDir dirRoot targets ok sources firstEvent
            moreEvents).invocations.all (fun i => i.2.2)
      then [] else drainInto isDir (firstEvent :: moreEvents) sources :=
  rfl

/-- C3: after the initial root sync and after every steady cycle, the dirty
set is empty exactly when every configured target's transfer returned true
in that cycle; when some target failed, every member of the pre-cycle dirty
set is still a member of the retained set that seeds the next cycle. -/
theorem C3_dirty_set_bookkeeping (isDir : List Char → Bool) (dirRoot : List Char)
    (targets : List (List Char)) (ok : List Char → List Char → Bool)
    (sources : List (List Char)) (firstEvent : List Char)
    (moreEvents : List (List Char)) :
    (initCycle dirRoot targets ok = [] ↔
      targets.all (fun tgt => ok dirRoot tgt) = true) ∧
    (targets.all (fun tgt => ok dirRoot tgt) = false →
      dirRoot ∈ initCycle dirRoot targets ok) ∧
    ((steadyCycle isDir dirRoot targets ok sources firstEvent moreEvents).sources = []
      ↔ (steadyCycle isDir dirRoot targets ok sources firstEvent
          moreEvents).invocations.all (fun i => i.2.2) = true) ∧
    ((steadyCycle isDir dirRoot targets ok sources firstEvent
        moreEvents).invocations.all (fun i => i.2.2) = false →
      ∀ x ∈ sources,
        x ∈ (steadyCycle isDir dirRoot targets ok sources firstEvent
              moreEvents).sources) := by
  refine ⟨?_, ?_, ?_, ?_⟩
  · unfold initCycle
    by_cases h : targets.all (fun tgt => ok dirRoot tgt) = true
    · simp [h]
    · simp [h]
  · intro h
    unfold initCycle
    rw [h]
    simp
  · rw [steadyCycle_sources_eq]
    by_cases h : (steadyCycle isDir dirRoot targets ok sources firstEvent
        moreEvents).invocations.all (fun i => i.2.2) = true
    · simp [h]
    · rw [if_neg h]
      constructor
      · intro hnil
        exact absurd hnil
          (List.ne_nil_of_mem
            (first_event_mem_drainInto isDir firstEvent moreEvents sources))
      · intro htrue
        exact absurd htrue h
  · intro h x hx
    rw [steadyCycle_sources_eq, h]
    simp only [Bool.false_eq_true, if_false]
    exact mem_drainInto_of_mem isDir (firstEvent :: moreEvents) hx

/-- Witness for C3 at a concrete failing cycle: root `/r`, one target `d`
whose transfer fails, pre-cycle dirty set containing `/r/a`, triggering
event `/r/b` (a directory): `/r/a` is retained for the next cycle. -/
theorem C3_witness :
    "/r/a".data ∈ (steadyCycle (fun _ => true) ("/r".data) ["d".data]
      (fun _ _ => false) ["/r/a".data] ("/r/b".data) []).sources := by
  have h := C3_dirty_set_bookkeeping (fun _ => true) ("/r".data) ["d".data]
    (fun _ _ => false) ["/r/a".data] ("/r/b".data) []
  exact h.2.2.2 (by decide) ("/r/a".data) (by decide)

/-- C4: the batcher sleeps exactly `max(0.1, t0 - now + delay)` seconds, so
the wait is never shorter than 0.1 seconds and the flush (at `now + sleep`)
never occurs before `t0 + delay`; the subsequent drain maps every queued
event to its containing directory and inserts it into the dirty set,
keeping everything already there. -/
theorem C4_debounce_timing (t0 now delay : ℚ) (isDir : List Char → Bool)
    (events : List (List Char)) (sources : List (List Char)) :
    debounceSleep t0 now delay = max (t0 - now + delay) (1/10) ∧
    1/10 ≤ debounceSleep t0 now delay ∧
    t0 + delay ≤ now + debounceSleep t0 now delay ∧
    (∀ x, x ∈ drainInto isDir events sources ↔
      x ∈ sources ∨ ∃ fn ∈ events, eventDir isDir fn = x) := by
  refine ⟨rfl, le_max_right _ _, ?_, fun x => mem_drainInto_iff isDir events sources x⟩
  have h := le_max_left (t0 - now + delay) (1/10)
  unfold debounceSleep
  linarith

/-- C5 counterexample: the claim says the bridge does not sleep on the
give-up branch.  With `maxAttempts = 1` the single channel closure is the
give-up one, yet the code (syncit.py line 152) sleeps `retrySleep`
unconditionally inside the loop body, so the trace contains a backoff
sleep. -/
theorem C5_counterexample :
    BridgeAct.sleepBackoff 600 ∈ bridgeRun 1 (fun _ => []) 600 := by
  decide

/-- C5 amended: on every channel closure (each of the `retries` loop
iterations) the bridge logs, sleeps the fixed `retrySleep`, and then
enqueues exactly one sentinel — the sleep and the sentinel also occur on
the final closure; after `maxAttempts` closures the loop ends with no
further connection attempts, sleeps, or sentinels (all three counts equal
`retries` exactly), and within one closure's handling the sentinel is
enqueued last, immediately after the sleep. -/
theorem C5_amended_backoff (retries : Nat) (sessions : Nat → List (List Char))
    (b : ℤ) :
    (bridgeRun retries sessions b).count BridgeAct.sentinel = retries ∧
    (bridgeRun retries sessions b).count BridgeAct.connect = retries ∧
    (bridgeRun retries sessions b).count (BridgeAct.sleepBackoff b) = retries ∧
    (∀ lines, bridgeIteration lines b = BridgeAct.connect ::
      (lines.flatMap processLine ++
        [BridgeAct.sleepBackoff b, BridgeAct.sentinel])) := by
  refine ⟨?_, ?_, ?_, fun _ => rfl⟩
  · exact count_bridgeLoop _ b (by simp) (fun p => by simp)
      (Or.inr (Or.inr rfl)) sessions retries 0
  · exact count_bridgeLoop _ b (by simp) (fun p => by simp)
      (Or.inl rfl) sessions retries 0
  · exact count_bridgeLoop _ b (by simp) (fun p => by simp)
      (Or.inr (Or.inl rfl)) sessions retries 0

/-- C6 counterexample: an unexpected fault (here an OSError raised by the
transfer invocation, e.g. a missing rsync binary) arising inside the pull
coordinator's per-notification try block does not escape to the
Supervisor: the bare `except:` of syncit.py line 219 swallows it and logs,
and the loop continues. -/
theorem C6_counterexample :
    (pullStep ("host".data) ("/remote".data) ("/local".data)
        (RsyncBehavior.raises PyExn.osError)
        (Payload.binary (some (".".data)))).escaped = none ∧
    (pullStep ("host".data) ("/remote".data) ("/local".data)
        (RsyncBehavior.raises PyExn.osError)
        (Payload.binary (some (".".data)))).loggedSkip = true :=
  ⟨rfl, rfl⟩

/-- C6 amended: in the pull coordinator's steady loop, every fault raised
inside the per-notification try block — decode errors and transfer
invocation faults alike — is caught by the bare except handler, logged,
and swallowed; no fault from inside that block ever escapes the loop, and
the skip is logged exactly when the try block raised. -/
theorem C6_amended_faults_swallowed (hostname directory tgt : List Char)
    (rb : RsyncBehavior) (p : Payload) :
    (pullStep hostname directory tgt rb p).escaped = none ∧
    (pullStep hostname directory tgt rb p).loggedSkip =
      !(exceptOk (pullTryBody hostname directory tgt rb p).2) := by
  rcases hpt : pullTryBody hostname directory tgt rb p with ⟨invs, ex⟩
  cases ex <;> simp [pullStep, hpt, exceptOk]

/-- C7: in the steady push cycle the destination for each configured target
is exactly the target itself when the computed relative path is `"."`, and
`target/relPath` otherwise; concretely, root `/root` with common path
`/root/sub` gives relative path `sub` and destination `dest/sub` for
target `dest`, while common path `/root` gives destination exactly `dest`;
a full cycle triggered under `/root/sub` invokes the executor once per
target with exactly that destination. -/
theorem C7_relative_fanout :
    (∀ tgt rel : List Char,
        (rel = [ '.' ] ∧ pushDest tgt rel = tgt) ∨
        (rel ≠ [ '.' ] ∧ pushDest tgt rel = joinPath tgt rel)) ∧
    relpathChars ("/root/sub".data) ("/root".data) = "sub".data ∧
    pushDest ("dest".data) (relpathChars ("/root/sub".data) ("/root".data)) =
      "dest/sub".data ∧
    pushDest ("dest".data) (relpathChars ("/root".data) ("/root".data)) =
      "dest".data ∧
    (steadyCycle (fun _ => true) ("/root".data) ["dest".data] (fun _ _ => true)
        [] ("/root/sub".data) []).invocations =
      [("/root/sub".data, "dest/sub".data, true)] := by
  refine ⟨?_, by decide, by decide, by decide, by decide⟩
  intro tgt rel
  by_cases h : rel = [ '.' ]
  · exact Or.inl ⟨h, by simp [pushDest, h]⟩
  · exact Or.inr ⟨h, by simp [pushDest, h]⟩

/-- C8: for a non-empty dirty set, the component list underlying the
computed common path is a prefix of every member's component list, and any
shared component prefix is a prefix of it — it is the longest shared
directory prefix; concretely, `/a/b`, `/a/b/c`, `/a/d` reduce to `/a`. -/
theorem C8_commonpath_lcp (p : List Char) (ps : List (List Char)) :
    (∀ q ∈ p :: ps,
        ((ps.map pathComponents).foldl lcp2 (pathComponents p)) <+:
          pathComponents q) ∧
    (∀ r, (∀ q ∈ p :: ps, r <+: pathComponents q) →
        r <+: (ps.map pathComponents).foldl lcp2 (pathComponents p)) ∧
    commonpath ["/a/b".data, "/a/b/c".data, "/a/d".data] = some ("/a".data) := by
  refine ⟨?_, ?_, by decide⟩
  · intro q hq
    rcases List.mem_cons.mp hq with rfl | hq
    · exact foldl_lcp2_prefix_acc _ _
    · exact foldl_lcp2_prefix_mem _ _ _ (List.mem_map.mpr ⟨q, hq, rfl⟩)
  · intro r hr
    refine prefix_foldl_lcp2 _ _ r (hr p (List.mem_cons_self p ps)) ?_
    intro x hx
    obtain ⟨q, hq, rfl⟩ := List.mem_map.mp hx
    exact hr q (List.mem_cons_of_mem p hq)

/-- Witness for C8 at concrete inputs: the shared component prefix `[a]` of
`/a/b` and `/a/d` is a prefix of their computed common component list. -/
theorem C8_witness :
    ["a".data] <+:
      ((["/a/d".data].map pathComponents).foldl lcp2
        (pathComponents ("/a/b".data))) := by
  have h := C8_commonpath_lcp ("/a/b".data) ["/a/d".data]
  refine h.2.1 ["a".data] ?_
  intro q hq
  rcases List.mem_cons.mp hq with rfl | hq
  · exact ⟨["b".data], by decide⟩
  · rcases List.mem_cons.mp hq with rfl | hq
    · exact ⟨["d".data], by decide⟩
    · exact absurd hq (List.not_mem_nil q)

/-- C9: one executor invocation returns true exactly when the external
tool's exit status is zero; its log record is at warning level exactly when
the exit status is non-zero and at info level exactly when it is zero, and
the captured combined output is included in the log message exactly when
the exit was non-zero or the output is non-empty. -/
theorem C9_executor_result_and_logging (rc : ℤ) (out : List Char) :
    ((rsyncRun rc out).1 = true ↔ rc = 0) ∧
    ((rsyncRun rc out).2.level = LogLevel.warning ↔ rc ≠ 0) ∧
    ((rsyncRun rc out).2.level = LogLevel.info ↔ rc = 0) ∧
    (rsyncRun rc out).2.includesOutput =
      (decide (rc ≠ 0) || decide (out ≠ [])) := by
  by_cases h : rc = 0
  · by_cases ho : out = [] <;>
      simp [rsyncRun, rsyncLogOf, h, ho]
  · simp [rsyncRun, rsyncLogOf, h]
